import Mathlib

/-!
Verification of the `fquic` connection layer (`conn.go`).

The file shallowly embeds the multiplexer of `Conn.acceptStreams`, the
close-once logic of `Conn.Close` / `Conn.CloseWithError`, the consumer
`Conn.AcceptStream`, and the `Dialer` configuration resolution
(`Dialer.tlsConfig`, `DialContext`, `ClientContext`, plus the package-level
`Dial` and `Client` helpers), and proves the specification's claims about
them.

Concurrency is modelled as a labelled small-step transition system over an
explicit connection state: the two `errgroup` accept goroutines, the
unbuffered `streams` channel (a send and its matching receive are a single
rendezvous step), the `done` channel with its watcher goroutine, the
`sync.Once` close guard, and the `streamErr` slot written after
`eg.Wait()` and read by `AcceptStream` once the channel is closed.
-/

set_option autoImplicit false

namespace FQuic

/-- A non-nil Go `error` value.  `ctxCanceled` models the error a
cancelled context produces (`context.Canceled` / what the session's
accept returns once its context is cancelled); `sessionErr n` models any
other terminal session error.  A Go `error` variable that may be nil is
`Option GoErr`, with `none` for nil. -/
inductive GoErr where
  | sessionErr (n : Nat)
  | ctxCanceled
deriving DecidableEq

/-- The two kinds of incoming streams accepted by `acceptStreams`. -/
inductive Kind where
  | bidi
  | uni
deriving DecidableEq

/-- Modelled from the spec: the `Stream` type lives in a file of this
repository that is not part of `src/` (only `conn.go` is), so it is taken
from the spec's data model: "Stream: wraps a send-side handle and/or
receive-side handle; a null send side denotes a unidirectional incoming
stream."  Handles are identified by `Nat` ids. -/
structure Stream where
  send : Option Nat
  recv : Option Nat
deriving DecidableEq

/-- Modelled from the spec: `newStream(c, send, recv)` wraps the given
send-side and receive-side handles into a `Stream` (the owning `Conn` is
irrelevant to the claims and omitted). -/
def newStream (send recv : Option Nat) : Stream :=
  { send := send, recv := recv }

/-- Program counter of one accept-loop goroutine of `acceptStreams`:
blocked in the session-level accept call, blocked sending an accepted
stream on the unbuffered `c.streams` channel, or returned with an error
(the loops return only on a non-nil accept error). -/
inductive LoopPC where
  | accepting
  | sending (s : Stream)
  | exited (e : GoErr)
deriving DecidableEq

/-- `true` exactly on `exited`. -/
def LoopPC.isExited : LoopPC → Bool
  | .exited _ => true
  | _ => false

/-- The session's behaviour, fixed per run: the streams each kind-specific
accept will yield in order, and the terminal error each accept returns
once its arrivals are exhausted (a session accept either yields a stream
or a non-nil error). -/
structure Script where
  bidiArr : List Nat
  uniArr : List Nat
  bidiErr : GoErr
  uniErr : GoErr
deriving DecidableEq

/-- Global state of one `Conn` together with its `acceptStreams`
goroutines.

* `bidiQueue` / `uniQueue`: arrivals the session has not yet handed out.
* `bidiPC` / `uniPC`: the two accept loops (`eg.Go` bodies).
* `egErr`: the first error recorded by the `errgroup` (what `eg.Wait()`
  will return); recording it also cancels the group context.
* `ctxCancelled`: the `errgroup` context (cancelled by the first loop
  error, by the `done`-watcher goroutine, or — as a derived context — by
  its parent).
* `doneClosed`: the `c.done` channel.
* `onceFired`: the `c.closer` `sync.Once`.
* `sessionCloseCount` / `sessionCloseArgs`: how often, and with which
  `(code, desc)` arguments, `c.session.CloseWithError` has been invoked.
* `streamErr`: the `c.streamErr` slot (nil until written after
  `eg.Wait()`).
* `streamsClosed`: whether `close(c.streams)` has run.
* `delivered`: the streams handed to `AcceptStream` callers, in delivery
  order. -/
structure ConnState where
  bidiQueue : List Nat
  uniQueue : List Nat
  bidiPC : LoopPC
  uniPC : LoopPC
  egErr : Option GoErr
  ctxCancelled : Bool
  doneClosed : Bool
  onceFired : Bool
  sessionCloseCount : Nat
  sessionCloseArgs : List (Nat × String)
  streamErr : Option GoErr
  streamsClosed : Bool
  delivered : List Stream
deriving DecidableEq

/-- `newConn`: the state right after a session is wrapped — empty
channels, both loops entering their accept calls. -/
def init (sc : Script) : ConnState :=
  { bidiQueue := sc.bidiArr
    uniQueue := sc.uniArr
    bidiPC := .accepting
    uniPC := .accepting
    egErr := none
    ctxCancelled := false
    doneClosed := false
    onceFired := false
    sessionCloseCount := 0
    sessionCloseArgs := []
    streamErr := none
    streamsClosed := false
    delivered := [] }

/-- The `errgroup` bookkeeping when a goroutine returns error `e`: the
first non-nil error is recorded (it becomes `eg.Wait()`'s result) and the
group context is cancelled; later errors are dropped. -/
def recordEg (e : GoErr) (σ : ConnState) : ConnState :=
  if σ.egErr.isSome then σ else { σ with egErr := some e, ctxCancelled := true }

/-- An accept loop of kind `k` returns error `e`: its goroutine exits and
the `errgroup` records the error if it is the first. -/
def recordExit (k : Kind) (e : GoErr) (σ : ConnState) : ConnState :=
  match k with
  | .bidi => recordEg e { σ with bidiPC := .exited e }
  | .uni => recordEg e { σ with uniPC := .exited e }

/-- `Conn.CloseWithError(code, desc)` as a state transformer:
`c.closer.Do(func() { close(c.done) })` — the `sync.Once` fires the close
signal only for the first caller — followed unconditionally by
`c.session.CloseWithError(code, desc)`. -/
def CloseWithError (code : Nat) (desc : String) (σ : ConnState) : ConnState :=
  let σ1 := if σ.onceFired then σ else { σ with onceFired := true, doneClosed := true }
  { σ1 with
    sessionCloseCount := σ1.sessionCloseCount + 1
    sessionCloseArgs := σ1.sessionCloseArgs ++ [(code, desc)] }

/-- `Conn.Close()`: `CloseWithError(0, "")`. -/
def Close (σ : ConnState) : ConnState :=
  CloseWithError 0 "" σ

/-- Observable labels: `tau` for internal steps, and one label per way an
`AcceptStream` call (or a `Close`/`CloseWithError` call) returns. -/
inductive Label where
  | tau
  | acceptDelivered (k : Kind) (s : Stream)
  | acceptCancelledRet (e : GoErr)
  | acceptClosedRet (r : Option GoErr)
  | closeRet (code : Nat) (desc : String)
deriving DecidableEq

/-- One small step of the whole system (parameterised by the session
script `sc`).

* `bidiAcceptOk` / `uniAcceptOk`: `c.session.AcceptStream(ctx)` (resp.
  `AcceptUniStream`) yields the next arrival; the loop wraps it with
  `newStream(c, s, s)` (resp. `newStream(c, nil, s)`) and moves to the
  channel send.
* `bidiAcceptFail` / `uniAcceptFail`: the accept returns its terminal
  error once arrivals are exhausted; the loop returns it to the errgroup.
* `bidiAcceptCancel` / `uniAcceptCancel`: with the group context
  cancelled, a pending accept returns the cancellation error instead.
* `deliverBidi` / `deliverUni`: rendezvous on the unbuffered `c.streams`
  channel — the loop's pending send pairs with an `AcceptStream` caller's
  receive, which then returns `(s, nil)`.
* `acceptCtxDone`: an `AcceptStream` caller whose context is done takes
  the `<-ctx.Done()` select branch and returns `(nil, ctx.Err())`; `e` is
  that caller's context error.
* `acceptClosed`: once `c.streams` is closed, a receive yields
  `ok = false` and the call returns `(nil, c.streamErr)` under the read
  lock.
* `closeCall`: a `Close`/`CloseWithError` call runs.
* `doneWatch`: the watcher goroutine `<-c.done; cancel()` fires.
* `waitRecord`: `eg.Wait()` has returned (both loops exited) with a
  non-nil error, which is stored into `c.streamErr` under the write lock.
* `closeIntake`: the deferred `close(c.streams)` runs; the guard
  `σ.streamErr = σ.egErr` captures that the (deferred-last) close happens
  after the error, if any, was recorded. -/
inductive Step (sc : Script) : ConnState → Label → ConnState → Prop where
  | bidiAcceptOk (σ : ConnState) (n : Nat) (rest : List Nat) :
      σ.bidiPC = .accepting → σ.ctxCancelled = false → σ.bidiQueue = n :: rest →
      Step sc σ .tau
        { σ with bidiPC := .sending (newStream (some n) (some n)), bidiQueue := rest }
  | uniAcceptOk (σ : ConnState) (n : Nat) (rest : List Nat) :
      σ.uniPC = .accepting → σ.ctxCancelled = false → σ.uniQueue = n :: rest →
      Step sc σ .tau
        { σ with uniPC := .sending (newStream none (some n)), uniQueue := rest }
  | bidiAcceptFail (σ : ConnState) :
      σ.bidiPC = .accepting → σ.bidiQueue = [] →
      Step sc σ .tau (recordExit .bidi sc.bidiErr σ)
  | uniAcceptFail (σ : ConnState) :
      σ.uniPC = .accepting → σ.uniQueue = [] →
      Step sc σ .tau (recordExit .uni sc.uniErr σ)
  | bidiAcceptCancel (σ : ConnState) :
      σ.bidiPC = .accepting → σ.ctxCancelled = true →
      Step sc σ .tau (recordExit .bidi .ctxCanceled σ)
  | uniAcceptCancel (σ : ConnState) :
      σ.uniPC = .accepting → σ.ctxCancelled = true →
      Step sc σ .tau (recordExit .uni .ctxCanceled σ)
  | deliverBidi (σ : ConnState) (s : Stream) :
      σ.bidiPC = .sending s → σ.streamsClosed = false →
      Step sc σ (.acceptDelivered .bidi s)
        { σ with bidiPC := .accepting, delivered := σ.delivered ++ [s] }
  | deliverUni (σ : ConnState) (s : Stream) :
      σ.uniPC = .sending s → σ.streamsClosed = false →
      Step sc σ (.acceptDelivered .uni s)
        { σ with uniPC := .accepting, delivered := σ.delivered ++ [s] }
  | acceptCtxDone (σ : ConnState) (e : GoErr) :
      Step sc σ (.acceptCancelledRet e) σ
  | acceptClosed (σ : ConnState) :
      σ.streamsClosed = true →
      Step sc σ (.acceptClosedRet σ.streamErr) σ
  | closeCall (σ : ConnState) (code : Nat) (desc : String) :
      Step sc σ (.closeRet code desc) (CloseWithError code desc σ)
  | doneWatch (σ : ConnState) :
      σ.doneClosed = true →
      Step sc σ .tau { σ with ctxCancelled := true }
  | waitRecord (σ : ConnState) (e1 e2 e : GoErr) :
      σ.bidiPC = .exited e1 → σ.uniPC = .exited e2 →
      σ.streamErr = none → σ.egErr = some e → σ.streamsClosed = false →
      Step sc σ .tau { σ with streamErr := some e }
  | closeIntake (σ : ConnState) (e1 e2 : GoErr) :
      σ.bidiPC = .exited e1 → σ.uniPC = .exited e2 →
      σ.streamErr = σ.egErr → σ.streamsClosed = false →
      Step sc σ .tau { σ with streamsClosed := true }

/-- A step with some label. -/
def StepAny (sc : Script) (σ σ' : ConnState) : Prop :=
  ∃ l, Step sc σ l σ'

/-- Reachability from the freshly created connection. -/
def Reach (sc : Script) (σ : ConnState) : Prop :=
  Relation.ReflTransGen (StepAny sc) (init sc) σ

/-- Handle ids of the bidirectional streams in a delivery trace, in
order (bidirectional streams are exactly those with a send side). -/
def bidiHandles (l : List Stream) : List Nat :=
  l.filterMap fun s => s.send

/-- Handle ids of the unidirectional streams in a delivery trace, in
order (those with a null send side). -/
def uniHandles (l : List Stream) : List Nat :=
  l.filterMap fun s => match s.send with
    | none => s.recv
    | some _ => none

/-- The handle a loop holds while blocked on the channel send, if any. -/
def pcInflight : LoopPC → List Nat
  | .sending s => s.recv.toList
  | _ => []

/-- The inductive invariant of reachable connection states. -/
structure Inv (sc : Script) (σ : ConnState) : Prop where
  closed_exited : σ.streamsClosed = true →
    σ.bidiPC.isExited = true ∧ σ.uniPC.isExited = true
  eg_from_loop : ∀ e, σ.egErr = some e →
    σ.bidiPC = .exited e ∨ σ.uniPC = .exited e
  exited_recorded : σ.bidiPC.isExited = true ∨ σ.uniPC.isExited = true →
    σ.egErr.isSome = true
  exited_cancelled : σ.bidiPC.isExited = true ∨ σ.uniPC.isExited = true →
    σ.ctxCancelled = true
  streamErr_eg : ∀ e, σ.streamErr = some e → σ.egErr = some e
  closed_err : σ.streamsClosed = true → σ.streamErr.isSome = true
  bidi_shape : ∀ s, σ.bidiPC = .sending s → ∃ n, s = newStream (some n) (some n)
  uni_shape : ∀ s, σ.uniPC = .sending s → ∃ n, s = newStream none (some n)
  bidi_fifo : bidiHandles σ.delivered ++ pcInflight σ.bidiPC ++ σ.bidiQueue = sc.bidiArr
  uni_fifo : uniHandles σ.delivered ++ pcInflight σ.uniPC ++ σ.uniQueue = sc.uniArr

theorem inv_init (sc : Script) : Inv sc (init sc) := by
  constructor <;> simp [init, bidiHandles, uniHandles, pcInflight, LoopPC.isExited]

theorem bidiHandles_append (l1 l2 : List Stream) :
    bidiHandles (l1 ++ l2) = bidiHandles l1 ++ bidiHandles l2 := by
  simp [bidiHandles, List.filterMap_append]

theorem uniHandles_append (l1 l2 : List Stream) :
    uniHandles (l1 ++ l2) = uniHandles l1 ++ uniHandles l2 := by
  simp [uniHandles, List.filterMap_append]

theorem bidiHandles_bidi (n : Nat) :
    bidiHandles [newStream (some n) (some n)] = [n] := by
  simp [bidiHandles, newStream]

theorem bidiHandles_uni (n : Nat) :
    bidiHandles [newStream none (some n)] = [] := by
  simp [bidiHandles, newStream]

theorem uniHandles_bidi (n : Nat) :
    uniHandles [newStream (some n) (some n)] = [] := by
  simp [uniHandles, newStream]

theorem uniHandles_uni (n : Nat) :
    uniHandles [newStream none (some n)] = [n] := by
  simp [uniHandles, newStream]

theorem recordEg_proj (e : GoErr) (σ : ConnState) :
    (recordEg e σ).bidiQueue = σ.bidiQueue ∧
    (recordEg e σ).uniQueue = σ.uniQueue ∧
    (recordEg e σ).bidiPC = σ.bidiPC ∧
    (recordEg e σ).uniPC = σ.uniPC ∧
    (recordEg e σ).doneClosed = σ.doneClosed ∧
    (recordEg e σ).onceFired = σ.onceFired ∧
    (recordEg e σ).sessionCloseCount = σ.sessionCloseCount ∧
    (recordEg e σ).sessionCloseArgs = σ.sessionCloseArgs ∧
    (recordEg e σ).streamErr = σ.streamErr ∧
    (recordEg e σ).streamsClosed = σ.streamsClosed ∧
    (recordEg e σ).delivered = σ.delivered := by
  unfold recordEg
  split <;> simp

theorem recordEg_egErr (e : GoErr) (σ : ConnState) :
    (recordEg e σ).egErr = some e ∨ (recordEg e σ).egErr = σ.egErr := by
  unfold recordEg
  split <;> simp

theorem recordEg_egErr_isSome (e : GoErr) (σ : ConnState) :
    (recordEg e σ).egErr.isSome = true := by
  unfold recordEg
  split <;> simp_all

theorem recordEg_egErr_of_isSome (e : GoErr) (σ : ConnState)
    (h : σ.egErr.isSome = true) : (recordEg e σ).egErr = σ.egErr := by
  unfold recordEg
  split <;> simp

theorem recordEg_ctxCancelled (e : GoErr) (σ : ConnState)
    (h : σ.ctxCancelled = true) : (recordEg e σ).ctxCancelled = true := by
  unfold recordEg
  split <;> simp [h]

theorem CloseWithError_proj (code : Nat) (desc : String) (σ : ConnState) :
    (CloseWithError code desc σ).bidiQueue = σ.bidiQueue ∧
    (CloseWithError code desc σ).uniQueue = σ.uniQueue ∧
    (CloseWithError code desc σ).bidiPC = σ.bidiPC ∧
    (CloseWithError code desc σ).uniPC = σ.uniPC ∧
    (CloseWithError code desc σ).egErr = σ.egErr ∧
    (CloseWithError code desc σ).ctxCancelled = σ.ctxCancelled ∧
    (CloseWithError code desc σ).streamErr = σ.streamErr ∧
    (CloseWithError code desc σ).streamsClosed = σ.streamsClosed ∧
    (CloseWithError code desc σ).delivered = σ.delivered := by
  unfold CloseWithError
  split <;> simp

theorem inv_recordExit_bidi (sc : Script) (σ : ConnState) (e : GoErr)
    (hInv : Inv sc σ) (h1 : σ.bidiPC = .accepting) :
    Inv sc (recordExit .bidi e σ) := by
  obtain ⟨hA, hB, hC, hD, hE, hF, hG, hH, hI, hJ⟩ := hInv
  simp only [recordExit]
  unfold recordEg
  split
  case isTrue hsome =>
    simp only [] at hsome
    obtain ⟨e0, he0⟩ := Option.isSome_iff_exists.mp hsome
    have huni : σ.uniPC = .exited e0 := by
      rcases hB e0 he0 with h | h
      · rw [h1] at h; exact absurd h (by simp)
      · exact h
    refine ⟨?_, ?_, ?_, ?_, ?_, ?_, ?_, ?_, ?_, ?_⟩ <;>
      simp_all [LoopPC.isExited, pcInflight]
  case isFalse hnone =>
    simp only [] at hnone
    refine ⟨?_, ?_, ?_, ?_, ?_, ?_, ?_, ?_, ?_, ?_⟩ <;>
      simp_all [LoopPC.isExited, pcInflight]

theorem inv_recordExit_uni (sc : Script) (σ : ConnState) (e : GoErr)
    (hInv : Inv sc σ) (h1 : σ.uniPC = .accepting) :
    Inv sc (recordExit .uni e σ) := by
  obtain ⟨hA, hB, hC, hD, hE, hF, hG, hH, hI, hJ⟩ := hInv
  simp only [recordExit]
  unfold recordEg
  split
  case isTrue hsome =>
    simp only [] at hsome
    obtain ⟨e0, he0⟩ := Option.isSome_iff_exists.mp hsome
    have hbidi : σ.bidiPC = .exited e0 := by
      rcases hB e0 he0 with h | h
      · exact h
      · rw [h1] at h; exact absurd h (by simp)
    refine ⟨?_, ?_, ?_, ?_, ?_, ?_, ?_, ?_, ?_, ?_⟩ <;>
      simp_all [LoopPC.isExited, pcInflight]
  case isFalse hnone =>
    simp only [] at hnone
    refine ⟨?_, ?_, ?_, ?_, ?_, ?_, ?_, ?_, ?_, ?_⟩ <;>
      simp_all [LoopPC.isExited, pcInflight]

set_option maxHeartbeats 2000000 in
theorem inv_step {sc : Script} {σ σ' : ConnState} {l : Label}
    (hInv : Inv sc σ) (hs : Step sc σ l σ') : Inv sc σ' := by
  cases hs with
  | bidiAcceptOk n rest h1 h2 h3 =>
      obtain ⟨hA, hB, hC, hD, hE, hF, hG, hH, hI, hJ⟩ := hInv
      refine ⟨?_, ?_, ?_, ?_, ?_, ?_, ?_, ?_, ?_, ?_⟩ <;>
        simp_all [LoopPC.isExited, pcInflight, newStream]
  | uniAcceptOk n rest h1 h2 h3 =>
      obtain ⟨hA, hB, hC, hD, hE, hF, hG, hH, hI, hJ⟩ := hInv
      refine ⟨?_, ?_, ?_, ?_, ?_, ?_, ?_, ?_, ?_, ?_⟩ <;>
        simp_all [LoopPC.isExited, pcInflight, newStream]
  | bidiAcceptFail h1 h2 =>
      exact inv_recordExit_bidi sc σ sc.bidiErr hInv h1
  | uniAcceptFail h1 h2 =>
      exact inv_recordExit_uni sc σ sc.uniErr hInv h1
  | bidiAcceptCancel h1 h2 =>
      exact inv_recordExit_bidi sc σ .ctxCanceled hInv h1
  | uniAcceptCancel h1 h2 =>
      exact inv_recordExit_uni sc σ .ctxCanceled hInv h1
  | deliverBidi s h1 h2 =>
      obtain ⟨hA, hB, hC, hD, hE, hF, hG, hH, hI, hJ⟩ := hInv
      obtain ⟨n, hn⟩ := hG s h1
      refine ⟨?_, ?_, ?_, ?_, ?_, ?_, ?_, ?_, ?_, ?_⟩ <;>
        simp_all [LoopPC.isExited, pcInflight, newStream,
          bidiHandles_append, uniHandles_append, bidiHandles, uniHandles]
  | deliverUni s h1 h2 =>
      obtain ⟨hA, hB, hC, hD, hE, hF, hG, hH, hI, hJ⟩ := hInv
      obtain ⟨n, hn⟩ := hH s h1
      refine ⟨?_, ?_, ?_, ?_, ?_, ?_, ?_, ?_, ?_, ?_⟩ <;>
        simp_all [LoopPC.isExited, pcInflight, newStream,
          bidiHandles_append, uniHandles_append, bidiHandles, uniHandles]
  | acceptCtxDone e =>
      exact hInv
  | acceptClosed h =>
      exact hInv
  | closeCall code desc =>
      obtain ⟨hA, hB, hC, hD, hE, hF, hG, hH, hI, hJ⟩ := hInv
      obtain ⟨p1, p2, p3, p4, p5, p6, p7, p8, p9⟩ := CloseWithError_proj code desc σ
      refine ⟨?_, ?_, ?_, ?_, ?_, ?_, ?_, ?_, ?_, ?_⟩ <;>
        simp_all [LoopPC.isExited]
  | doneWatch h =>
      obtain ⟨hA, hB, hC, hD, hE, hF, hG, hH, hI, hJ⟩ := hInv
      refine ⟨?_, ?_, ?_, ?_, ?_, ?_, ?_, ?_, ?_, ?_⟩ <;>
        simp_all [LoopPC.isExited, pcInflight]
  | waitRecord e1 e2 e h1 h2 h3 h4 h5 =>
      obtain ⟨hA, hB, hC, hD, hE, hF, hG, hH, hI, hJ⟩ := hInv
      refine ⟨?_, ?_, ?_, ?_, ?_, ?_, ?_, ?_, ?_, ?_⟩ <;>
        simp_all [LoopPC.isExited, pcInflight]
  | closeIntake e1 e2 h1 h2 h3 h4 =>
      obtain ⟨hA, hB, hC, hD, hE, hF, hG, hH, hI, hJ⟩ := hInv
      refine ⟨?_, ?_, ?_, ?_, ?_, ?_, ?_, ?_, ?_, ?_⟩ <;>
        simp_all [LoopPC.isExited, pcInflight]

theorem inv_reach {sc : Script} {σ : ConnState} (h : Reach sc σ) : Inv sc σ := by
  unfold Reach at h
  induction h with
  | refl => exact inv_init sc
  | tail hr hs ih =>
      obtain ⟨l, hs⟩ := hs
      exact inv_step ih hs

theorem recordExit_bidi_pc (e : GoErr) (σ : ConnState) :
    (recordExit .bidi e σ).bidiPC = .exited e := by
  simp only [recordExit]
  unfold recordEg
  split <;> simp

theorem recordExit_uni_pc (e : GoErr) (σ : ConnState) :
    (recordExit .uni e σ).uniPC = .exited e := by
  simp only [recordExit]
  unfold recordEg
  split <;> simp

/-- Once the errgroup has recorded its first error, no step changes it:
`eg.Wait()`'s result is the first observed error. -/
theorem egErr_mono {sc : Script} {σ σ' : ConnState} {l : Label} {e : GoErr}
    (hs : Step sc σ l σ') (h : σ.egErr = some e) : σ'.egErr = some e := by
  cases hs with
  | bidiAcceptFail h1 h2 => simp [recordExit, recordEg, h]
  | uniAcceptFail h1 h2 => simp [recordExit, recordEg, h]
  | bidiAcceptCancel h1 h2 => simp [recordExit, recordEg, h]
  | uniAcceptCancel h1 h2 => simp [recordExit, recordEg, h]
  | closeCall code desc =>
      rw [(CloseWithError_proj code desc σ).2.2.2.2.1]
      exact h
  | _ => exact h

/-- Once `c.streamErr` holds an error, no step changes it: the terminal
error is written at most once. -/
theorem streamErr_mono {sc : Script} {σ σ' : ConnState} {l : Label} {e : GoErr}
    (hs : Step sc σ l σ') (h : σ.streamErr = some e) : σ'.streamErr = some e := by
  cases hs with
  | bidiAcceptFail h1 h2 => simpa [recordExit, (recordEg_proj _ _).2.2.2.2.2.2.2.2.1] using h
  | uniAcceptFail h1 h2 => simpa [recordExit, (recordEg_proj _ _).2.2.2.2.2.2.2.2.1] using h
  | bidiAcceptCancel h1 h2 => simpa [recordExit, (recordEg_proj _ _).2.2.2.2.2.2.2.2.1] using h
  | uniAcceptCancel h1 h2 => simpa [recordExit, (recordEg_proj _ _).2.2.2.2.2.2.2.2.1] using h
  | closeCall code desc =>
      rw [(CloseWithError_proj code desc σ).2.2.2.2.2.2.1]
      exact h
  | waitRecord e1 e2 e' h1 h2 h3 h4 h5 => rw [h3] at h; exact absurd h (by simp)
  | _ => exact h

/-- A concrete session script used by the witnesses: one bidirectional
arrival (handle 5), one unidirectional arrival (handle 7), then distinct
terminal session errors. -/
def sc0 : Script :=
  { bidiArr := [5], uniArr := [7], bidiErr := .sessionErr 1, uniErr := .sessionErr 2 }

/-- A concrete torn-down state of `sc0`'s connection: both arrivals
delivered, the bidirectional accept failed first (its error recorded),
the sibling loop cancelled, the error stored and the intake closed. -/
def closedState : ConnState :=
  { bidiQueue := []
    uniQueue := []
    bidiPC := .exited (.sessionErr 1)
    uniPC := .exited .ctxCanceled
    egErr := some (.sessionErr 1)
    ctxCancelled := true
    doneClosed := false
    onceFired := false
    sessionCloseCount := 0
    sessionCloseArgs := []
    streamErr := some (.sessionErr 1)
    streamsClosed := true
    delivered := [newStream (some 5) (some 5), newStream none (some 7)] }

theorem reach_closedState : Reach sc0 closedState := by
  refine Relation.ReflTransGen.head ⟨_, Step.bidiAcceptOk _ 5 [] rfl rfl rfl⟩ ?_
  refine Relation.ReflTransGen.head ⟨_, Step.deliverBidi _ _ rfl rfl⟩ ?_
  refine Relation.ReflTransGen.head ⟨_, Step.uniAcceptOk _ 7 [] rfl rfl rfl⟩ ?_
  refine Relation.ReflTransGen.head ⟨_, Step.deliverUni _ _ rfl rfl⟩ ?_
  refine Relation.ReflTransGen.head ⟨_, Step.bidiAcceptFail _ rfl rfl⟩ ?_
  refine Relation.ReflTransGen.head ⟨_, Step.uniAcceptCancel _ rfl rfl⟩ ?_
  refine Relation.ReflTransGen.head ⟨_, Step.waitRecord _ (.sessionErr 1) .ctxCanceled (.sessionErr 1) rfl rfl rfl rfl rfl⟩ ?_
  refine Relation.ReflTransGen.head ⟨_, Step.closeIntake _ (.sessionErr 1) .ctxCanceled rfl rfl rfl rfl⟩ ?_
  exact Relation.ReflTransGen.refl

/-- A state of `sc0`'s connection in which the bidirectional loop holds an
accepted stream and is blocked on the unbuffered intake. -/
def sendingState : ConnState :=
  { init sc0 with bidiPC := .sending (newStream (some 5) (some 5)), bidiQueue := [] }

theorem reach_sendingState : Reach sc0 sendingState :=
  Relation.ReflTransGen.head ⟨_, Step.bidiAcceptOk _ 5 [] rfl rfl rfl⟩
    Relation.ReflTransGen.refl

/-- `sendingState` after the rendezvous delivering its pending stream. -/
def deliveredState : ConnState :=
  { sendingState with
    bidiPC := .accepting
    delivered := [newStream (some 5) (some 5)] }

/-- Once the group context is cancelled, a bidirectional-loop pending
accept never completes with a stream: any step leaves the loop accepting
or makes it exit. -/
theorem step_bidiPC_no_accept {sc : Script} {σ σ' : ConnState} {l : Label}
    (hs : Step sc σ l σ') (hacc : σ.bidiPC = .accepting) (hcanc : σ.ctxCancelled = true) :
    σ'.bidiPC = .accepting ∨ σ'.bidiPC.isExited = true := by
  cases hs with
  | bidiAcceptOk n rest h1 h2 h3 => rw [hcanc] at h2; exact absurd h2 (by simp)
  | uniAcceptOk n rest h1 h2 h3 => exact .inl hacc
  | bidiAcceptFail h1 h2 => exact .inr (by rw [recordExit_bidi_pc]; rfl)
  | uniAcceptFail h1 h2 =>
      exact .inl (by rw [recordExit, (recordEg_proj _ _).2.2.1]; exact hacc)
  | bidiAcceptCancel h1 h2 => exact .inr (by rw [recordExit_bidi_pc]; rfl)
  | uniAcceptCancel h1 h2 =>
      exact .inl (by rw [recordExit, (recordEg_proj _ _).2.2.1]; exact hacc)
  | deliverBidi s h1 h2 => rw [hacc] at h1; exact absurd h1 (by simp)
  | deliverUni s h1 h2 => exact .inl hacc
  | acceptCtxDone e => exact .inl hacc
  | acceptClosed h => exact .inl hacc
  | closeCall code desc =>
      exact .inl (by rw [(CloseWithError_proj code desc σ).2.2.1]; exact hacc)
  | doneWatch h => exact .inl hacc
  | waitRecord e1 e2 e h1 h2 h3 h4 h5 => exact .inl hacc
  | closeIntake e1 e2 h1 h2 h3 h4 => exact .inl hacc

/-- Symmetric statement for the unidirectional loop. -/
theorem step_uniPC_no_accept {sc : Script} {σ σ' : ConnState} {l : Label}
    (hs : Step sc σ l σ') (hacc : σ.uniPC = .accepting) (hcanc : σ.ctxCancelled = true) :
    σ'.uniPC = .accepting ∨ σ'.uniPC.isExited = true := by
  cases hs with
  | uniAcceptOk n rest h1 h2 h3 => rw [hcanc] at h2; exact absurd h2 (by simp)
  | bidiAcceptOk n rest h1 h2 h3 => exact .inl hacc
  | uniAcceptFail h1 h2 => exact .inr (by rw [recordExit_uni_pc]; rfl)
  | bidiAcceptFail h1 h2 =>
      exact .inl (by rw [recordExit, (recordEg_proj _ _).2.2.2.1]; exact hacc)
  | uniAcceptCancel h1 h2 => exact .inr (by rw [recordExit_uni_pc]; rfl)
  | bidiAcceptCancel h1 h2 =>
      exact .inl (by rw [recordExit, (recordEg_proj _ _).2.2.2.1]; exact hacc)
  | deliverUni s h1 h2 => rw [hacc] at h1; exact absurd h1 (by simp)
  | deliverBidi s h1 h2 => exact .inl hacc
  | acceptCtxDone e => exact .inl hacc
  | acceptClosed h => exact .inl hacc
  | closeCall code desc =>
      exact .inl (by rw [(CloseWithError_proj code desc σ).2.2.2.1]; exact hacc)
  | doneWatch h => exact .inl hacc
  | waitRecord e1 e2 e h1 h2 h3 h4 h5 => exact .inl hacc
  | closeIntake e1 e2 h1 h2 h3 h4 => exact .inl hacc

/-- In a reachable state, a loop blocked on the intake implies the intake
is not yet closed (so its send cannot panic and can still rendezvous). -/
theorem sending_not_closed_bidi {sc : Script} {σ : ConnState} {s : Stream}
    (hr : Reach sc σ) (h : σ.bidiPC = .sending s) : σ.streamsClosed = false := by
  cases hcl : σ.streamsClosed with
  | false => rfl
  | true =>
      have hex := ((inv_reach hr).closed_exited hcl).1
      rw [h] at hex
      exact absurd hex (by simp [LoopPC.isExited])

theorem sending_not_closed_uni {sc : Script} {σ : ConnState} {s : Stream}
    (hr : Reach sc σ) (h : σ.uniPC = .sending s) : σ.streamsClosed = false := by
  cases hcl : σ.streamsClosed with
  | false => rfl
  | true =>
      have hex := ((inv_reach hr).closed_exited hcl).2
      rw [h] at hex
      exact absurd hex (by simp [LoopPC.isExited])

/-- From a quiescent state, the bidirectional loop can accept and deliver
its whole remaining queue, leaving the rest of the state untouched. -/
theorem drain_bidi (sc : Script) :
    ∀ (q : List Nat) (σ : ConnState), Reach sc σ →
      σ.bidiPC = .accepting → σ.ctxCancelled = false → σ.streamsClosed = false →
      σ.bidiQueue = q →
      ∃ σ', Reach sc σ' ∧ σ'.bidiPC = .accepting ∧ σ'.ctxCancelled = false ∧
        σ'.streamsClosed = false ∧ σ'.bidiQueue = [] ∧
        σ'.delivered = σ.delivered ++ q.map (fun n => newStream (some n) (some n)) ∧
        σ'.uniPC = σ.uniPC ∧ σ'.uniQueue = σ.uniQueue := by
  intro q
  induction q with
  | nil =>
      intro σ hr h1 h2 h3 h4
      exact ⟨σ, hr, h1, h2, h3, h4, by simp, rfl, rfl⟩
  | cons n rest ih =>
      intro σ hr h1 h2 h3 h4
      have hs1 : Step sc σ .tau
          { σ with bidiPC := .sending (newStream (some n) (some n)), bidiQueue := rest } :=
        Step.bidiAcceptOk σ n rest h1 h2 h4
      have hs2 : Step sc
          { σ with bidiPC := .sending (newStream (some n) (some n)), bidiQueue := rest }
          (.acceptDelivered .bidi (newStream (some n) (some n)))
          { σ with
            bidiPC := .accepting
            bidiQueue := rest
            delivered := σ.delivered ++ [newStream (some n) (some n)] } :=
        Step.deliverBidi _ _ rfl h3
      have hr2 : Reach sc
          { σ with
            bidiPC := .accepting
            bidiQueue := rest
            delivered := σ.delivered ++ [newStream (some n) (some n)] } :=
        Relation.ReflTransGen.tail (Relation.ReflTransGen.tail hr ⟨_, hs1⟩) ⟨_, hs2⟩
      obtain ⟨σ', hr', ha, hb, hc, hd, he, hf, hg⟩ := ih _ hr2 rfl h2 h3 rfl
      refine ⟨σ', hr', ha, hb, hc, hd, ?_, hf, hg⟩
      rw [he]
      simp

/-- Symmetric statement for the unidirectional loop. -/
theorem drain_uni (sc : Script) :
    ∀ (q : List Nat) (σ : ConnState), Reach sc σ →
      σ.uniPC = .accepting → σ.ctxCancelled = false → σ.streamsClosed = false →
      σ.uniQueue = q →
      ∃ σ', Reach sc σ' ∧ σ'.uniPC = .accepting ∧ σ'.ctxCancelled = false ∧
        σ'.streamsClosed = false ∧ σ'.uniQueue = [] ∧
        σ'.delivered = σ.delivered ++ q.map (fun n => newStream none (some n)) ∧
        σ'.bidiPC = σ.bidiPC ∧ σ'.bidiQueue = σ.bidiQueue := by
  intro q
  induction q with
  | nil =>
      intro σ hr h1 h2 h3 h4
      exact ⟨σ, hr, h1, h2, h3, h4, by simp, rfl, rfl⟩
  | cons n rest ih =>
      intro σ hr h1 h2 h3 h4
      have hs1 : Step sc σ .tau
          { σ with uniPC := .sending (newStream none (some n)), uniQueue := rest } :=
        Step.uniAcceptOk σ n rest h1 h2 h4
      have hs2 : Step sc
          { σ with uniPC := .sending (newStream none (some n)), uniQueue := rest }
          (.acceptDelivered .uni (newStream none (some n)))
          { σ with
            uniPC := .accepting
            uniQueue := rest
            delivered := σ.delivered ++ [newStream none (some n)] } :=
        Step.deliverUni _ _ rfl h3
      have hr2 : Reach sc
          { σ with
            uniPC := .accepting
            uniQueue := rest
            delivered := σ.delivered ++ [newStream none (some n)] } :=
        Relation.ReflTransGen.tail (Relation.ReflTransGen.tail hr ⟨_, hs1⟩) ⟨_, hs2⟩
      obtain ⟨σ', hr', ha, hb, hc, hd, he, hf, hg⟩ := ih _ hr2 rfl h2 h3 rfl
      refine ⟨σ', hr', ha, hb, hc, hd, ?_, hf, hg⟩
      rw [he]
      simp

theorem bidiHandles_map_bidi (l : List Nat) :
    bidiHandles (l.map fun n => newStream (some n) (some n)) = l := by
  induction l with
  | nil => rfl
  | cons n rest ih => simp_all [bidiHandles, newStream]

theorem bidiHandles_map_uni (l : List Nat) :
    bidiHandles (l.map fun n => newStream none (some n)) = [] := by
  induction l with
  | nil => rfl
  | cons n rest ih => simp_all [bidiHandles, newStream]

theorem uniHandles_map_bidi (l : List Nat) :
    uniHandles (l.map fun n => newStream (some n) (some n)) = [] := by
  induction l with
  | nil => rfl
  | cons n rest ih => simp_all [uniHandles, newStream]

theorem uniHandles_map_uni (l : List Nat) :
    uniHandles (l.map fun n => newStream none (some n)) = l := by
  induction l with
  | nil => rfl
  | cons n rest ih => simp_all [uniHandles, newStream]

/-- For every session script there is a run of the multiplexer delivering
every arrival of both kinds, in per-kind arrival order. -/
theorem complete_run (sc : Script) :
    ∃ σ, Reach sc σ ∧
      bidiHandles σ.delivered = sc.bidiArr ∧ uniHandles σ.delivered = sc.uniArr := by
  obtain ⟨σ1, hr1, ha1, hb1, hc1, hd1, he1, hf1, hg1⟩ :=
    drain_bidi sc sc.bidiArr (init sc) Relation.ReflTransGen.refl rfl rfl rfl rfl
  obtain ⟨σ2, hr2, ha2, hb2, hc2, hd2, he2, hf2, hg2⟩ :=
    drain_uni sc sc.uniArr σ1 hr1 hf1 hb1 hc1 hg1
  refine ⟨σ2, hr2, ?_, ?_⟩
  · rw [he2, he1, bidiHandles_append, bidiHandles_append,
      bidiHandles_map_bidi, bidiHandles_map_uni]
    simp [init, bidiHandles]
  · rw [he2, he1, uniHandles_append, uniHandles_append,
      uniHandles_map_bidi, uniHandles_map_uni]
    simp [init, uniHandles]

/-- **C2.** In every reachable state: the terminal error is set at most
once (no step overwrites a recorded `streamErr`); whenever the intake is
closed, a non-nil error is recorded and it is the actual error returned
by one of the two accept loops, never a substitute; and the only
`AcceptStream` return that carries the recorded error is the one that
observes the closed intake, and it returns exactly `c.streamErr`. -/
theorem c2_terminal_error (sc : Script) (σ : ConnState) (hr : Reach sc σ) :
    (∀ σ' l e, Step sc σ l σ' → σ.streamErr = some e → σ'.streamErr = some e) ∧
    (σ.streamsClosed = true → ∃ e, σ.streamErr = some e ∧
      (σ.bidiPC = .exited e ∨ σ.uniPC = .exited e)) ∧
    (∀ σ' r, Step sc σ (.acceptClosedRet r) σ' →
      σ.streamsClosed = true ∧ r = σ.streamErr) := by
  have hInv := inv_reach hr
  refine ⟨?_, ?_, ?_⟩
  · intro σ' l e hs h
    exact streamErr_mono hs h
  · intro hc
    obtain ⟨e, he⟩ := Option.isSome_iff_exists.mp (hInv.closed_err hc)
    exact ⟨e, he, hInv.eg_from_loop e (hInv.streamErr_eg e he)⟩
  · intro σ' r hs
    cases hs with
    | acceptClosed h => exact ⟨h, rfl⟩

/-- Witness for C2 at the concrete torn-down state `closedState`. -/
theorem c2_witness :
    Reach sc0 closedState ∧
    (closedState.streamsClosed = true → ∃ e, closedState.streamErr = some e ∧
      (closedState.bidiPC = .exited e ∨ closedState.uniPC = .exited e)) :=
  ⟨reach_closedState, (c2_terminal_error sc0 closedState reach_closedState).2.1⟩

/-- **C3.** The two accept loops fail closed as a unit: any loop exit
implies the group context is cancelled; an external close (fired `done`
channel) enables the cancellation step; under a cancelled context a
pending accept of either loop can be cancelled (the exit step with the
cancellation error is enabled) and can never complete with a stream; the
intake is closed only after both loops have exited; the first recorded
error is never overwritten; and the recorded terminal error is the actual
error of whichever loop it came from. -/
theorem c3_fail_closed_unit (sc : Script) (σ : ConnState) (hr : Reach sc σ) :
    ((σ.bidiPC.isExited = true ∨ σ.uniPC.isExited = true) → σ.ctxCancelled = true) ∧
    (σ.doneClosed = true → Step sc σ .tau { σ with ctxCancelled := true }) ∧
    (σ.ctxCancelled = true → σ.bidiPC = .accepting →
      (∃ σ', Step sc σ .tau σ' ∧ σ'.bidiPC = .exited .ctxCanceled) ∧
      ∀ σ' l, Step sc σ l σ' → σ'.bidiPC = .accepting ∨ σ'.bidiPC.isExited = true) ∧
    (σ.ctxCancelled = true → σ.uniPC = .accepting →
      (∃ σ', Step sc σ .tau σ' ∧ σ'.uniPC = .exited .ctxCanceled) ∧
      ∀ σ' l, Step sc σ l σ' → σ'.uniPC = .accepting ∨ σ'.uniPC.isExited = true) ∧
    (σ.streamsClosed = true → σ.bidiPC.isExited = true ∧ σ.uniPC.isExited = true) ∧
    (∀ σ' l e, Step sc σ l σ' → σ.egErr = some e → σ'.egErr = some e) ∧
    (∀ e, σ.streamErr = some e → σ.bidiPC = .exited e ∨ σ.uniPC = .exited e) := by
  have hInv := inv_reach hr
  refine ⟨hInv.exited_cancelled, ?_, ?_, ?_, hInv.closed_exited, ?_, ?_⟩
  · intro h
    exact Step.doneWatch σ h
  · intro hcanc hacc
    exact ⟨⟨_, Step.bidiAcceptCancel σ hacc hcanc, recordExit_bidi_pc _ _⟩,
      fun σ' l hs => step_bidiPC_no_accept hs hacc hcanc⟩
  · intro hcanc hacc
    exact ⟨⟨_, Step.uniAcceptCancel σ hacc hcanc, recordExit_uni_pc _ _⟩,
      fun σ' l hs => step_uniPC_no_accept hs hacc hcanc⟩
  · intro σ' l e hs h
    exact egErr_mono hs h
  · intro e he
    exact hInv.eg_from_loop e (hInv.streamErr_eg e he)

/-- Witness for C3 at the concrete torn-down state `closedState`. -/
theorem c3_witness :
    Reach sc0 closedState ∧
    ((closedState.bidiPC.isExited = true ∨ closedState.uniPC.isExited = true) →
      closedState.ctxCancelled = true) ∧
    (closedState.streamsClosed = true →
      closedState.bidiPC.isExited = true ∧ closedState.uniPC.isExited = true) :=
  ⟨reach_closedState,
    (c3_fail_closed_unit sc0 closedState reach_closedState).1,
    (c3_fail_closed_unit sc0 closedState reach_closedState).2.2.2.2.1⟩

/-- **C4.** Per-kind exactly-once FIFO delivery: in every reachable
state, the delivered bidirectional handles, followed by the one the bidi
loop may hold in flight, followed by the not-yet-accepted remainder, are
exactly the session's bidirectional arrival sequence (and likewise for
the unidirectional kind) — so delivery is duplicate-free and preserves
per-kind arrival order; a stream held in flight can always be delivered
by the next `AcceptStream` rendezvous; and every script has a run that
delivers all arrivals of both kinds. -/
theorem c4_exactly_once_fifo (sc : Script) (σ : ConnState) (hr : Reach sc σ) :
    (bidiHandles σ.delivered ++ pcInflight σ.bidiPC ++ σ.bidiQueue = sc.bidiArr) ∧
    (uniHandles σ.delivered ++ pcInflight σ.uniPC ++ σ.uniQueue = sc.uniArr) ∧
    (∀ s, σ.bidiPC = .sending s → ∃ σ', Step sc σ (.acceptDelivered .bidi s) σ') ∧
    (∀ s, σ.uniPC = .sending s → ∃ σ', Step sc σ (.acceptDelivered .uni s) σ') ∧
    (∃ σf, Reach sc σf ∧ bidiHandles σf.delivered = sc.bidiArr ∧
      uniHandles σf.delivered = sc.uniArr) := by
  have hInv := inv_reach hr
  refine ⟨hInv.bidi_fifo, hInv.uni_fifo, ?_, ?_, complete_run sc⟩
  · intro s h
    exact ⟨_, Step.deliverBidi σ s h (sending_not_closed_bidi hr h)⟩
  · intro s h
    exact ⟨_, Step.deliverUni σ s h (sending_not_closed_uni hr h)⟩

/-- Witness for C4 at the concrete state `sendingState` (one stream
accepted and in flight). -/
theorem c4_witness :
    Reach sc0 sendingState ∧
    (bidiHandles sendingState.delivered ++ pcInflight sendingState.bidiPC ++
      sendingState.bidiQueue = sc0.bidiArr) ∧
    (∀ s, sendingState.bidiPC = .sending s →
      ∃ σ', Step sc0 sendingState (.acceptDelivered .bidi s) σ') :=
  ⟨reach_sendingState,
    (c4_exactly_once_fifo sc0 sendingState reach_sendingState).1,
    (c4_exactly_once_fifo sc0 sendingState reach_sendingState).2.2.1⟩

/-- **C5.** An `AcceptStream` return through the `<-ctx.Done()` branch
leaves the whole connection state unchanged — no stream is consumed, no
multiplexer or connection state is modified — and any stream a loop holds
in flight is still deliverable to a subsequent `AcceptStream` call. -/
theorem c5_cancellation_scoped (sc : Script) (σ σ' : ConnState) (e : GoErr)
    (hr : Reach sc σ) (hs : Step sc σ (.acceptCancelledRet e) σ') :
    σ' = σ ∧
    (∀ s, σ.bidiPC = .sending s → ∃ σ2, Step sc σ' (.acceptDelivered .bidi s) σ2) ∧
    (∀ s, σ.uniPC = .sending s → ∃ σ2, Step sc σ' (.acceptDelivered .uni s) σ2) := by
  have heq : σ' = σ := by cases hs; rfl
  subst heq
  refine ⟨rfl, ?_, ?_⟩
  · intro s h
    exact ⟨_, Step.deliverBidi σ' s h (sending_not_closed_bidi hr h)⟩
  · intro s h
    exact ⟨_, Step.deliverUni σ' s h (sending_not_closed_uni hr h)⟩

/-- Witness for C5: a cancelled `AcceptStream` call at `sendingState`
leaves the state unchanged and the in-flight stream deliverable. -/
theorem c5_witness :
    Reach sc0 sendingState ∧
    Step sc0 sendingState (.acceptCancelledRet .ctxCanceled) sendingState ∧
    (sendingState = sendingState ∧
      (∀ s, sendingState.bidiPC = .sending s →
        ∃ σ2, Step sc0 sendingState (.acceptDelivered .bidi s) σ2)) :=
  ⟨reach_sendingState, Step.acceptCtxDone sendingState .ctxCanceled,
    (c5_cancellation_scoped sc0 sendingState sendingState .ctxCanceled
      reach_sendingState (Step.acceptCtxDone sendingState .ctxCanceled)).1,
    (c5_cancellation_scoped sc0 sendingState sendingState .ctxCanceled
      reach_sendingState (Step.acceptCtxDone sendingState .ctxCanceled)).2.1⟩

/-- **C8.** Every stream the unidirectional loop delivers on the intake
has a null send side and a receive side holding the accepted stream, and
every stream the bidirectional loop delivers has both sides set to the
accepted stream. -/
theorem c8_delivered_shapes (sc : Script) (σ σ' : ConnState) (k : Kind) (s : Stream)
    (hr : Reach sc σ) (hs : Step sc σ (.acceptDelivered k s) σ') :
    (k = .uni → s.send = none ∧ ∃ n, s.recv = some n) ∧
    (k = .bidi → ∃ n, s.send = some n ∧ s.recv = some n) := by
  have hInv := inv_reach hr
  cases hs with
  | deliverBidi s h1 h2 =>
      obtain ⟨n, hn⟩ := hInv.bidi_shape s h1
      subst hn
      exact ⟨fun h => Kind.noConfusion h, fun _ => ⟨n, rfl, rfl⟩⟩
  | deliverUni s h1 h2 =>
      obtain ⟨n, hn⟩ := hInv.uni_shape s h1
      subst hn
      exact ⟨fun _ => ⟨rfl, n, rfl⟩, fun h => Kind.noConfusion h⟩

/-- Witness for C8: the concrete delivery step out of `sendingState`. -/
theorem c8_witness :
    Reach sc0 sendingState ∧
    Step sc0 sendingState
      (.acceptDelivered .bidi (newStream (some 5) (some 5))) deliveredState ∧
    (Kind.bidi = .bidi → ∃ n, (newStream (some 5) (some 5)).send = some n ∧
      (newStream (some 5) (some 5)).recv = some n) :=
  ⟨reach_sendingState, Step.deliverBidi sendingState _ rfl rfl,
    (c8_delivered_shapes sc0 sendingState deliveredState .bidi
      (newStream (some 5) (some 5)) reach_sendingState
      (Step.deliverBidi sendingState _ rfl rfl)).2⟩

/-!
### Dialer and configuration resolution

`Dialer.tlsConfig`, `DialContext`/`Dial`, `ClientContext`/`Client` and the
package-level `Dial`/`Client` helpers from `conn.go`.  The network layer
(`quic.DialAddrContext` / `quic.DialContext`) is an oracle parameter: a
function from the dial arguments and the resolved TLS configuration to an
outcome, invoked only after configuration resolution succeeds — Go
evaluates `d.tlsConfig()` as an argument before the dial call runs, so a
panic there precedes any network activity.
-/

/-- The slice of `crypto/tls.Config` relevant here: the ALPN
protocol-negotiation list `NextProtos`, plus one representative further
field (`ServerName`) standing in for the rest of the caller's
configuration that `Clone` copies. -/
structure TLSConfig where
  ServerName : String := ""
  NextProtos : List String := []
deriving DecidableEq

/-- `(*tls.Config).Clone()`: a nil receiver yields nil, otherwise a copy
of the configuration (value semantics at this level of abstraction). -/
def cloneTLSConfig : Option TLSConfig → Option TLSConfig
  | none => none
  | some c => some c

/-- The `Dialer` of `conn.go`: a possibly-nil TLS configuration, a
possibly-nil (and here opaque) quic configuration, and the
application-protocol identifier. -/
structure Dialer where
  TLSConfig : Option TLSConfig := none
  QuicConfig : Option Unit := none
  Protocol : String := ""
deriving DecidableEq

/-- `new(Dialer)`: the zero value — nil TLS configuration, nil quic
configuration, empty protocol. -/
def Dialer.new : Dialer := {}

/-- `Dialer.tlsConfig`: clone the caller's configuration (substituting a
fresh blank one for nil), prepend `d.Protocol` to `NextProtos` when
non-empty (`append([]string{d.Protocol}, conf.NextProtos...)`), and panic
— modelled as `Except.error` — when the resulting negotiation list is
empty. -/
def Dialer.tlsConfig (d : Dialer) : Except String FQuic.TLSConfig :=
  let conf := match cloneTLSConfig d.TLSConfig with
    | none => ({} : FQuic.TLSConfig)
    | some c => c
  let conf := if d.Protocol ≠ "" then
      { conf with NextProtos := d.Protocol :: conf.NextProtos }
    else conf
  if conf.NextProtos.length = 0 then Except.error "no protocol specified"
  else Except.ok conf

/-- The negotiation list `tlsConfig` ends up checking: the caller's list
(empty for a nil configuration) with `d.Protocol` prepended when
non-empty. -/
def Dialer.resolvedNextProtos (d : Dialer) : List String :=
  let base := match cloneTLSConfig d.TLSConfig with
    | none => []
    | some c => c.NextProtos
  if d.Protocol ≠ "" then d.Protocol :: base else base

/-- The caller-supplied negotiation list (empty when no TLS configuration
was supplied). -/
def Dialer.callerNextProtos (d : Dialer) : List String :=
  match d.TLSConfig with
  | none => []
  | some c => c.NextProtos

/-- Placeholder for a `net.PacketConn` value. -/
structure PacketConn where
  id : Nat
deriving DecidableEq

/-- Placeholder for a `net.Addr` value. -/
structure Addr where
  id : Nat
deriving DecidableEq

/-- Outcome of a dial operation.  `panicked msg` means configuration
resolution panicked before any network activity; `netError` and
`connected conf` mean the network layer ran, with `conf` the resolved
TLS configuration it was given. -/
inductive DialResult where
  | panicked (msg : String)
  | netError (e : GoErr)
  | connected (conf : TLSConfig)
deriving DecidableEq

/-- `Dialer.DialContext(ctx, address)`: resolve the configuration, then
`quic.DialAddrContext(ctx, address, conf, d.QuicConfig)` (the oracle
`dialAddr`). -/
def Dialer.DialContext (d : Dialer) (address : String)
    (dialAddr : String → FQuic.TLSConfig → Except GoErr Unit) : DialResult :=
  match d.tlsConfig with
  | .error msg => .panicked msg
  | .ok conf =>
      match dialAddr address conf with
      | .error e => .netError e
      | .ok _ => .connected conf

/-- `Dialer.Dial(address)`: `DialContext` with the background context. -/
def Dialer.Dial (d : Dialer) (address : String)
    (dialAddr : String → FQuic.TLSConfig → Except GoErr Unit) : DialResult :=
  d.DialContext address dialAddr

/-- `Dialer.ClientContext(ctx, conn, raddr, host)`: resolve the
configuration, then `quic.DialContext(ctx, conn, raddr, host, conf,
d.QuicConfig)` (the oracle `dialConn`). -/
def Dialer.ClientContext (d : Dialer) (conn : PacketConn) (raddr : Addr) (host : String)
    (dialConn : PacketConn → Addr → String → FQuic.TLSConfig → Except GoErr Unit) : DialResult :=
  match d.tlsConfig with
  | .error msg => .panicked msg
  | .ok conf =>
      match dialConn conn raddr host conf with
      | .error e => .netError e
      | .ok _ => .connected conf

/-- `Dialer.Client(conn, raddr, host)`: `ClientContext` with the
background context. -/
def Dialer.Client (d : Dialer) (conn : PacketConn) (raddr : Addr) (host : String)
    (dialConn : PacketConn → Addr → String → FQuic.TLSConfig → Except GoErr Unit) : DialResult :=
  d.ClientContext conn raddr host dialConn

/-- Package-level `Dial(address)`: `new(Dialer).Dial(address)`. -/
def Dial (address : String)
    (dialAddr : String → TLSConfig → Except GoErr Unit) : DialResult :=
  Dialer.new.Dial address dialAddr

/-- Package-level `Client(conn, raddr, host)`:
`new(Dialer).Client(conn, raddr, host)`. -/
def Client (conn : PacketConn) (raddr : Addr) (host : String)
    (dialConn : PacketConn → Addr → String → TLSConfig → Except GoErr Unit) : DialResult :=
  Dialer.new.Client conn raddr host dialConn

/-- The caller-visible state threaded through `tlsConfig`: the `Dialer`
record (whose `TLSConfig` field is the caller's configuration object)
and the function's local `conf` variable. -/
structure TLSResolveState where
  dialer : Dialer
  conf : Option TLSConfig
deriving DecidableEq

/-- `Dialer.tlsConfig` transcribed statement by statement over an
explicit state, so its frame effect is provable: `conf :=
d.TLSConfig.Clone()`, the nil check substituting `new(tls.Config)`, the
`NextProtos` prepend (which assigns the local `conf`'s field only), and
the emptiness check.  Every statement writes only the local `conf`; the
dialer is only read. -/
def tlsConfigSteps (d : Dialer) : TLSResolveState × Except String TLSConfig :=
  let st : TLSResolveState := { dialer := d, conf := cloneTLSConfig d.TLSConfig }
  let st := if st.conf = none then { st with conf := some {} } else st
  let st := if st.dialer.Protocol ≠ "" then
      { st with conf := st.conf.map fun c =>
          { c with NextProtos := st.dialer.Protocol :: c.NextProtos } }
    else st
  match st.conf with
  | some c =>
      if c.NextProtos.length = 0 then (st, Except.error "no protocol specified")
      else (st, Except.ok c)
  | none => (st, Except.error "no protocol specified")

theorem tlsConfig_of_resolved_nil (d : Dialer) (h : d.resolvedNextProtos = []) :
    d.tlsConfig = Except.error "no protocol specified" := by
  unfold Dialer.tlsConfig
  unfold Dialer.resolvedNextProtos at h
  cases hc : cloneTLSConfig d.TLSConfig with
  | none =>
      rw [hc] at h
      by_cases hp : d.Protocol = "" <;> simp_all
  | some c =>
      rw [hc] at h
      by_cases hp : d.Protocol = "" <;> simp_all

/-- **C1 counterexample.** The claim "`session.CloseWithError` is invoked
exactly once over any number of `Close`/`CloseWithError` calls" fails:
after two sequential `Close` calls on a fresh connection the session-level
close has been invoked twice — the `sync.Once` guards only
`close(c.done)`, while every call falls through to
`c.session.CloseWithError`. -/
theorem c1_counterexample :
    (Close (Close (init sc0))).sessionCloseCount = 2 ∧
    ¬ (Close (Close (init sc0))).sessionCloseCount = 1 := by
  constructor
  · rfl
  · decide

theorem CloseWithError_sessionCloseCount (code : Nat) (desc : String) (σ : ConnState) :
    (CloseWithError code desc σ).sessionCloseCount = σ.sessionCloseCount + 1 := by
  unfold CloseWithError
  split <;> rfl

theorem CloseWithError_onceFired (code : Nat) (desc : String) (σ : ConnState) :
    (CloseWithError code desc σ).onceFired = true := by
  unfold CloseWithError
  cases h : σ.onceFired <;> simp [h]

theorem CloseWithError_doneClosed (code : Nat) (desc : String) (σ : ConnState) :
    (CloseWithError code desc σ).doneClosed =
      ((σ.onceFired && σ.doneClosed) || !σ.onceFired) := by
  unfold CloseWithError
  cases h : σ.onceFired <;> simp [h]

/-- **C1 (amended).** `Close`/`CloseWithError` fire the close signal
idempotently: after any positive number of sequential calls, the `done`
channel has been closed (exactly the effect of the first call, so
multiplexer cancellation is triggered once) and the `sync.Once` has
fired; but the underlying `session.CloseWithError` is re-invoked by
every call — after `n` calls its invocation count is `n`, not `1`. -/
theorem c1_close_once_signal_not_session (sc : Script) (n : Nat) :
    (Close^[n] (init sc)).sessionCloseCount = n ∧
    (Close^[n] (init sc)).doneClosed = (n != 0) ∧
    (Close^[n] (init sc)).onceFired = (n != 0) := by
  induction n with
  | zero => simp [init]
  | succ m ih =>
      obtain ⟨ih1, ih2, ih3⟩ := ih
      simp only [Function.iterate_succ_apply', Close]
      rw [CloseWithError_sessionCloseCount, CloseWithError_onceFired,
        CloseWithError_doneClosed, ih1, ih2, ih3]
      cases hm : (m != 0) <;> simp

/-- **C6.** If the negotiation list obtained by combining the caller's
configuration with the Dialer's protocol identifier is empty,
configuration resolution panics with "no protocol specified", and every
dial operation — address-based or socket-based, whatever the network
would do — deterministically returns that panic without any network
activity. -/
theorem c6_empty_protocols_fail_fast (d : Dialer) (h : d.resolvedNextProtos = []) :
    d.tlsConfig = Except.error "no protocol specified" ∧
    (∀ address dialAddr,
      d.DialContext address dialAddr = .panicked "no protocol specified") ∧
    (∀ address dialAddr, d.Dial address dialAddr = .panicked "no protocol specified") ∧
    (∀ conn raddr host dialConn,
      d.ClientContext conn raddr host dialConn = .panicked "no protocol specified") ∧
    (∀ conn raddr host dialConn,
      d.Client conn raddr host dialConn = .panicked "no protocol specified") := by
  have he := tlsConfig_of_resolved_nil d h
  refine ⟨he, ?_, ?_, ?_, ?_⟩
  · intro address dialAddr
    simp [Dialer.DialContext, he]
  · intro address dialAddr
    simp [Dialer.Dial, Dialer.DialContext, he]
  · intro conn raddr host dialConn
    simp [Dialer.ClientContext, he]
  · intro conn raddr host dialConn
    simp [Dialer.Client, Dialer.ClientContext, he]

/-- Witness for C6 at the zero `Dialer` (no TLS configuration, no
protocol identifier). -/
theorem c6_witness :
    Dialer.new.resolvedNextProtos = [] ∧
    Dialer.new.tlsConfig = Except.error "no protocol specified" :=
  ⟨rfl, (c6_empty_protocols_fail_fast Dialer.new rfl).1⟩

/-- **C7.** A non-empty protocol identifier is prepended: configuration
resolution succeeds and the resolved negotiation list is exactly the
identifier followed by the caller-supplied list, so its first entry is
the identifier. -/
theorem c7_protocol_prepended (d : Dialer) (h : d.Protocol ≠ "") :
    ∃ conf, d.tlsConfig = Except.ok conf ∧
      conf.NextProtos = d.Protocol :: d.callerNextProtos ∧
      conf.NextProtos.head? = some d.Protocol := by
  unfold Dialer.tlsConfig Dialer.callerNextProtos
  cases hc : d.TLSConfig with
  | none => simp [cloneTLSConfig, h]
  | some c => simp [cloneTLSConfig, h]

/-- Witness for C7: a `Dialer` configured with only the protocol
identifier "h3-test" yields a negotiation list headed by "h3-test". -/
theorem c7_witness :
    ((Dialer.mk none none "h3-test").Protocol ≠ "") ∧
    ∃ conf, (Dialer.mk none none "h3-test").tlsConfig = Except.ok conf ∧
      conf.NextProtos = (Dialer.mk none none "h3-test").Protocol ::
        (Dialer.mk none none "h3-test").callerNextProtos ∧
      conf.NextProtos.head? = some (Dialer.mk none none "h3-test").Protocol :=
  ⟨by decide, c7_protocol_prepended (Dialer.mk none none "h3-test") (by decide)⟩

/-- **C9.** The package-level `Dial` and `Client` construct a zero
`Dialer`, whose combined negotiation list is empty, so for every address
(and every socket/remote-address/host triple) and every possible network
behaviour they panic with "no protocol specified" before any network
activity; they can never succeed. -/
theorem c9_package_dial_client_always_panic :
    (∀ address dialAddr, Dial address dialAddr = .panicked "no protocol specified") ∧
    (∀ conn raddr host dialConn,
      Client conn raddr host dialConn = .panicked "no protocol specified") := by
  constructor
  · intro address dialAddr
    rfl
  · intro conn raddr host dialConn
    rfl

/-- **C10.** Configuration resolution never mutates the `Dialer` or the
caller's TLS configuration: in the statement-by-statement transcription
`tlsConfigSteps`, the dialer (with its `TLSConfig` field and that
configuration's `NextProtos`) is returned unchanged; the transcription
computes exactly `Dialer.tlsConfig`; a nil configuration is tolerated, a
fresh blank one being substituted; and a caller configuration's other
fields survive into the result unchanged. -/
theorem c10_tlsConfig_frame_effect (d : Dialer) :
    ((tlsConfigSteps d).1.dialer = d ∧
      (tlsConfigSteps d).1.dialer.TLSConfig = d.TLSConfig) ∧
    (tlsConfigSteps d).2 = d.tlsConfig ∧
    (∀ q p, (tlsConfigSteps (Dialer.mk none q p)).2 =
      if p = "" then Except.error "no protocol specified"
      else Except.ok (TLSConfig.mk "" [p])) ∧
    (∀ q p sn protos, (Dialer.mk (some (TLSConfig.mk sn protos)) q p).tlsConfig =
      if (if p = "" then protos else p :: protos).length = 0
      then Except.error "no protocol specified"
      else Except.ok (TLSConfig.mk sn (if p = "" then protos else p :: protos))) := by
  refine ⟨?_, ?_, ?_, ?_⟩
  · unfold tlsConfigSteps
    cases hc : cloneTLSConfig d.TLSConfig <;>
      by_cases hp : d.Protocol = "" <;>
        (simp [hc, hp]; try (split <;> simp))
  · unfold tlsConfigSteps Dialer.tlsConfig
    cases hc : cloneTLSConfig d.TLSConfig <;>
      by_cases hp : d.Protocol = "" <;>
        (simp [hc, hp]; try (split <;> simp))
  · intro q p
    by_cases hp : p = "" <;>
      simp [tlsConfigSteps, cloneTLSConfig, hp]
  · intro q p sn protos
    by_cases hp : p = "" <;>
      simp [Dialer.tlsConfig, cloneTLSConfig, hp]

end FQuic
